import Mathlib

/-!
Verification development for the PhytoChem GUI prediction pipeline
(`GUI/GUI.py`).  The Python source is shallowly embedded: the mutable
globals (`user_inputs`, `current_index`, the shown frame, the result
labels and the CSV log file) become fields of an explicit state record,
and each Tk callback (`start_input`, `handle_next_feature`,
`edit_inputs`, `confirm_and_predict` / `run_prediction`) becomes a pure
state transformer.  The two pickled models are opaque parameters with
the `predict_proba` contract, and CSV persistence is modelled as an
optional list of log lines (`none` = the file does not exist yet).
-/

/-- A value stored in `user_inputs`: Python stores either the result of
`float(value)` (modelled exactly as a rational) or the string itself. -/
inductive Value where
  | num (q : ℚ)
  | str (s : String)
deriving DecidableEq, Repr

/-- The classification labels produced at `GUI.py:277-278`. -/
inductive Label where
  | antiAngiogenic
  | proAngiogenic
deriving DecidableEq, Repr

/-- The four frames of the wizard GUI (`GUI.py:90-93`). -/
inductive Frame where
  | welcome
  | input
  | summary
  | result
deriving DecidableEq, Repr

/-- `user_inputs` is a Python dict from feature name to value; modelled
as an association list with insertion order preserved and at most one
entry per key, exactly the observable behaviour of a `dict`. -/
abbrev FeatureMap := List (String × Value)

/-- Dict assignment `m[k] = v`: replaces the value of an existing key in
place, otherwise appends the new key at the end (Python dicts preserve
insertion order). -/
def insertKV : FeatureMap → String → Value → FeatureMap
  | [], k, v => [(k, v)]
  | (k', v') :: t, k, v =>
    if k' = k then (k, v) :: t else (k', v') :: insertKV t k v

/-- Dict lookup `m.get(k)`. -/
def lookupKV : FeatureMap → String → Option Value
  | [], _ => none
  | (k', v') :: t, k => if k' = k then some v' else lookupKV t k

/-- The keys of the dict in insertion order (= the columns of
`pd.DataFrame([user_inputs])`). -/
def keysOf (m : FeatureMap) : List String := m.map Prod.fst

/-- ASCII whitespace stripped by Python `str.strip()` (the literal
whitespace characters; exotic Unicode spaces are not modelled). -/
def isPySpace (c : Char) : Bool :=
  c == ' ' || c == '\t' || c == '\n' || c == '\r' || c == '\x0b' || c == '\x0c'

/-- Python `str.strip()`: drop leading and trailing whitespace. -/
def pyStrip (s : String) : String :=
  ⟨((s.data.dropWhile isPySpace).reverse.dropWhile isPySpace).reverse⟩

/-- Digits to a natural number, most significant first. -/
def digitsToNat (cs : List Char) : Nat :=
  cs.foldl (fun n c => 10 * n + (c.toNat - 48)) 0

/-- Parse an optionally signed run of digits making up the whole input
(the exponent part of a float literal). -/
def parseSignedDigits (cs : List Char) : Option Int :=
  let (sgn, cs') : Int × List Char :=
    match cs with
    | '-' :: t => (-1, t)
    | '+' :: t => (1, t)
    | _ => (1, cs)
  let ds := cs'.takeWhile Char.isDigit
  let rest := cs'.dropWhile Char.isDigit
  if ds.isEmpty ∨ ¬ rest.isEmpty then none else some (sgn * digitsToNat ds)

/-- Parse the tail after the mantissa: empty, or `e`/`E` followed by a
signed digit run.  Anything else makes the whole conversion fail. -/
def parseExpTail : List Char → Option Int
  | [] => some 0
  | 'e' :: t => parseSignedDigits t
  | 'E' :: t => parseSignedDigits t
  | _ => none

/-- The rational denoted by a decimal literal with sign `neg`, integer
digits `ip`, fraction digits `fp` and decimal exponent `e`:
`±(ip.fp) × 10^e`, built with `mkRat` so that it evaluates by plain
integer arithmetic. -/
def pyFloatVal (neg : Bool) (ip fp : List Char) (e : Int) : ℚ :=
  let mag : Int := (digitsToNat ip * 10 ^ fp.length + digitsToNat fp : Nat)
  let num : Int := if neg then -mag else mag
  match e - (fp.length : Int) with
  | Int.ofNat k => mkRat (num * ((10 ^ k : Nat) : Int)) 1
  | Int.negSucc k => mkRat num (10 ^ (k + 1))

/-- Model of Python `float(s)` on an already-stripped string: an
optional sign, a decimal mantissa (digits, with an optional fractional
part, or a leading dot with digits) and an optional exponent.  The
result is the exact rational denoted by the literal (binary rounding,
`inf`/`nan` spellings and digit underscores are not modelled). -/
def pyFloat? (s : String) : Option ℚ :=
  let cs := s.data
  let (neg, cs₁) : Bool × List Char :=
    match cs with
    | '-' :: t => (true, t)
    | '+' :: t => (false, t)
    | _ => (false, cs)
  let ip := cs₁.takeWhile Char.isDigit
  let cs₂ := cs₁.dropWhile Char.isDigit
  let (fp, cs₃) : List Char × List Char :=
    match cs₂ with
    | '.' :: t => (t.takeWhile Char.isDigit, t.dropWhile Char.isDigit)
    | _ => ([], cs₂)
  if ip.isEmpty ∧ fp.isEmpty then none
  else
    match parseExpTail cs₃ with
    | none => none
    | some e => some (pyFloatVal neg ip fp e)

/-- `GUI.py:18-22`: the declared feature list. -/
def all_features : List String :=
  ["Target", "DockingScorekcalmol", "ADMETHighlights1ADMETpasses0ADMETnotpasses",
   "MWgmol", "LogP", "TPSA", "HBD", "HBA",
   "RotB", "AromaticRings", "MR", "PlantSource"]

/-- `GUI.py:23`: the features not collected from the user. -/
def excluded : List String := ["Target", "PlantSource"]

/-- `GUI.py:24`: `[f for f in all_features if f not in excluded]`. -/
def input_features : List String :=
  all_features.filter (fun f => ¬ f ∈ excluded)

/-- The coercion of `GUI.py:163-166`: `float(value)` if it succeeds,
otherwise the string itself. -/
def coerceValue (v : String) : Value :=
  match pyFloat? v with
  | some q => Value.num q
  | none => Value.str v

/-- The literal `0.5` of `GUI.py:277-278` (written with `mkRat` so that
it evaluates by plain integer arithmetic). -/
def half : ℚ := mkRat 1 2

/-- Threshold classification of `GUI.py:277-278`:
`"ANTI-ANGIOGENIC" if prob >= 0.5 else "PRO-ANGIOGENIC"`. -/
def classify (p : ℚ) : Label :=
  if p ≥ half then Label.antiAngiogenic else Label.proAngiogenic

/-- Numeric rank of a label, anti-angiogenic above pro-angiogenic, used
to state monotonicity of the threshold rule. -/
def labelRank : Label → Nat
  | Label.proAngiogenic => 0
  | Label.antiAngiogenic => 1

/-- `GUI.py:269-271`: the three autofill assignments performed at the
start of `run_prediction`, in source order. -/
def autofill (m : FeatureMap) : FeatureMap :=
  insertKV (insertKV (insertKV m "Target" (Value.num (-2)))
      "PlantSource" (Value.str "Unknown"))
    "Phytochemical" (Value.str "Unknown")

/-- One line of `GUIResults.csv`: either the header row written by
`to_csv(header=True)` or a data row (the one-row frame `result_row`
of `GUI.py:287-291`: the feature record plus `ML_Prob`, `Hybrid_Prob`,
`ML_Pred`, `Hybrid_Pred`). -/
inductive LogLine where
  | header (cols : List String)
  | data (row : FeatureMap) (mlProb hyProb : ℚ) (mlPred hyPred : Label)
deriving DecidableEq, Repr

/-- The result columns appended after the feature columns. -/
def resultCols : List String := ["ML_Prob", "Hybrid_Prob", "ML_Pred", "Hybrid_Pred"]

/-- `GUI.py:293-294`: `result_row.to_csv("GUIResults.csv", mode='a',
header=not file_exists)`.  `none` models a file that does not exist:
the write then creates it with a header line followed by the data line;
otherwise only the data line is appended. -/
def appendCsv (file : Option (List LogLine)) (cols : List String) (row : FeatureMap)
    (mp hp : ℚ) (mc hc : Label) : Option (List LogLine) :=
  match file with
  | none => some [LogLine.header cols, LogLine.data row mp hp mc hc]
  | some lines => some (lines ++ [LogLine.data row mp hp mc hc])

/-- The mutable state of the GUI: the globals `user_inputs` and
`current_index`, the frame currently raised, the contents of the two
result labels (modelled as the classified label and exact probability,
`none` before any prediction), the log file, and `recorded` — a history
field listing the features stored by `handle_next_feature` since the
last `start_input`, used to state completeness properties (the step
function never reads it). -/
structure GUIState where
  userInputs : FeatureMap
  currentIndex : Nat
  frame : Frame
  file : Option (List LogLine)
  mlDisplay : Option (Label × ℚ)
  hybridDisplay : Option (Label × ℚ)
  recorded : List String
deriving DecidableEq, Repr

/-- The external collaborators of one session: the two loaded model
bundles, each exposing `predict_proba` on the single-row frame (the row
`[p_negative, p_positive]`, or an exception message), and whether the
CSV append succeeds (an `IOError` otherwise). -/
structure Env where
  ml_predict_proba : FeatureMap → Except String (ℚ × ℚ)
  hybrid_predict_proba : FeatureMap → Except String (ℚ × ℚ)
  sinkOk : Bool

/-- An exception escaping `run_prediction`: a model rejecting the
record, or the file write failing. -/
inductive RunErr where
  | modelInvocation (msg : String)
  | ioError
deriving DecidableEq, Repr

/-- `GUI.py:268-294` (`run_prediction`), with Python exception
semantics made explicit: the state records every mutation performed
before the first failing call, and the second component reports normal
return or the escaping exception. -/
def run_prediction (env : Env) (s : GUIState) : GUIState × Except RunErr Unit :=
  let inputs := autofill s.userInputs
  let input_df := inputs
  match env.ml_predict_proba input_df with
  | Except.error e => ({ s with userInputs := inputs }, Except.error (RunErr.modelInvocation e))
  | Except.ok mlRow =>
    match env.hybrid_predict_proba input_df with
    | Except.error e => ({ s with userInputs := inputs }, Except.error (RunErr.modelInvocation e))
    | Except.ok hyRow =>
      let ml_prob := mlRow.2
      let hybrid_prob := hyRow.2
      let ml_class := classify ml_prob
      let hy_class := classify hybrid_prob
      let s' := { s with userInputs := inputs,
                         mlDisplay := some (ml_class, ml_prob),
                         hybridDisplay := some (hy_class, hybrid_prob) }
      if env.sinkOk then
        ({ s' with file := appendCsv s'.file (keysOf input_df ++ resultCols)
                     input_df ml_prob hybrid_prob ml_class hy_class },
         Except.ok ())
      else
        (s', Except.error RunErr.ioError)

/-- `GUI.py:230-232` (`confirm_and_predict`): run the prediction, then
raise the result frame — the frame switch is skipped when
`run_prediction` raises. -/
def confirm_and_predict (env : Env) (s : GUIState) : GUIState :=
  match run_prediction env s with
  | (s', Except.ok _) => { s' with frame := Frame.result }
  | (s', Except.error _) => s'

/-- `GUI.py:192-197` (`start_input`): reset the step index and clear
all collected inputs (the `recorded` history is cleared with them). -/
def start_input (s : GUIState) : GUIState :=
  { s with currentIndex := 0, userInputs := [], recorded := [] }

/-- `GUI.py:234-239` (`edit_inputs`): reset the step index to the first
feature and return to the input frame; collected values are kept. -/
def edit_inputs (s : GUIState) : GUIState :=
  { s with currentIndex := 0, frame := Frame.input }

/-- `GUI.py:155-175` (`handle_next_feature`): strip the entry text,
refuse an empty value, store `float(value)` or the string itself under
the current feature, advance, and raise the summary frame after the
last feature.  (An index beyond the feature list cannot occur while the
input frame is shown; that branch leaves the state unchanged.) -/
def handle_next_feature (raw : String) (s : GUIState) : GUIState :=
  let value := pyStrip raw
  if value = "" then s
  else
    match input_features.get? s.currentIndex with
    | none => s
    | some feature_name =>
      if s.currentIndex + 1 < input_features.length then
        { s with userInputs := insertKV s.userInputs feature_name (coerceValue value),
                 currentIndex := s.currentIndex + 1,
                 recorded := feature_name :: s.recorded }
      else
        { s with userInputs := insertKV s.userInputs feature_name (coerceValue value),
                 currentIndex := s.currentIndex + 1,
                 recorded := feature_name :: s.recorded,
                 frame := Frame.summary }

/-- A user action on the GUI. -/
inductive Event where
  | startInput
  | nextFeature (raw : String)
  | editInputs
  | confirmAndPredict

/-- One user action: each button's handler runs only when the frame
holding that button is the one currently raised (`Start Input` on the
welcome frame and `Start Over` on the result frame both run
`show_frame(input_frame)` then `start_input()`; `Next` lives on the
input frame; `Edit Inputs` and `Confirm & Predict` on the summary
frame). -/
def step (env : Env) (s : GUIState) (e : Event) : GUIState :=
  match e with
  | Event.startInput =>
    if s.frame = Frame.welcome ∨ s.frame = Frame.result then
      start_input { s with frame := Frame.input }
    else s
  | Event.nextFeature raw =>
    if s.frame = Frame.input then handle_next_feature raw s else s
  | Event.editInputs =>
    if s.frame = Frame.summary then edit_inputs s else s
  | Event.confirmAndPredict =>
    if s.frame = Frame.summary then confirm_and_predict env s else s

/-- The state at program start: empty inputs, index 0, welcome frame
raised; `f0` is whatever `GUIResults.csv` holds on disk already. -/
def initState (f0 : Option (List LogLine)) : GUIState :=
  { userInputs := [], currentIndex := 0, frame := Frame.welcome,
    file := f0, mlDisplay := none, hybridDisplay := none, recorded := [] }

/-- Run a sequence of user actions from program start. -/
def run (env : Env) (f0 : Option (List LogLine)) (es : List Event) : GUIState :=
  es.foldl (step env) (initState f0)

/-- The spec's `InputCollector.isComplete()`: every required input
feature has a recorded value. -/
def isComplete (s : GUIState) : Bool :=
  input_features.all (fun f => (lookupKV s.userInputs f).isSome)

/-- The spec's `InputCollector.recordValue(feature, rawString)`: the
validation-and-store core of `handle_next_feature` (`GUI.py:157-166`)
detached from the wizard state: refuse a value that strips to empty,
otherwise store the numeric coercion, or the stripped string itself
when coercion fails. -/
inductive InputError where
  | missingValue
deriving DecidableEq, Repr

def recordValue (m : FeatureMap) (feature : String) (raw : String) :
    Except InputError FeatureMap :=
  let value := pyStrip raw
  if value = "" then Except.error InputError.missingValue
  else Except.ok (insertKV m feature (coerceValue value))

/-! ### Sample data for concrete instantiations -/

/-- The worked scenario of the spec: a complete set of collected inputs
in schema order (`-8.2`, `1`, `320.5`, `2.1`, `65`, `2`, `4`, `3`, `3`,
`85` for the ten required features). -/
def sampleInputs : FeatureMap :=
  [("DockingScorekcalmol", Value.num (mkRat (-41) 5)),
   ("ADMETHighlights1ADMETpasses0ADMETnotpasses", Value.num (mkRat 1 1)),
   ("MWgmol", Value.num (mkRat 641 2)),
   ("LogP", Value.num (mkRat 21 10)),
   ("TPSA", Value.num (mkRat 65 1)),
   ("HBD", Value.num (mkRat 2 1)),
   ("HBA", Value.num (mkRat 4 1)),
   ("RotB", Value.num (mkRat 3 1)),
   ("AromaticRings", Value.num (mkRat 2 1)),
   ("MR", Value.num (mkRat 85 1))]

/-- A summary-frame state as reached after stepping through all ten
features: inputs complete, index at the end, empty existing log file. -/
def sampleSummary : GUIState :=
  { userInputs := sampleInputs, currentIndex := input_features.length,
    frame := Frame.summary, file := some [], mlDisplay := none,
    hybridDisplay := none, recorded := input_features.reverse }

/-- A well-behaved environment: both models return fixed probability
rows (`p_positive` 0.73 and 0.41) and the log write succeeds. -/
def env₀ : Env :=
  { ml_predict_proba := fun _ => Except.ok (mkRat 27 100, mkRat 73 100),
    hybrid_predict_proba := fun _ => Except.ok (mkRat 59 100, mkRat 41 100),
    sinkOk := true }

/-- The same models but with the CSV append failing. -/
def envNoSink : Env :=
  { ml_predict_proba := fun _ => Except.ok (mkRat 27 100, mkRat 73 100),
    hybrid_predict_proba := fun _ => Except.ok (mkRat 59 100, mkRat 41 100),
    sinkOk := false }

/-- An environment whose ML model rejects the record. -/
def envMlFails : Env :=
  { ml_predict_proba := fun _ => Except.error "ValueError: columns are missing",
    hybrid_predict_proba := fun _ => Except.ok (59/100, 41/100),
    sinkOk := true }

/-- A full wizard pass in the spec scenario: start, then the ten
feature values in order. -/
def sampleValues : List String :=
  ["-8.2", "1", "320.5", "2.1", "65", "2", "4", "3", "2", "85"]

def sampleTrace : List Event :=
  Event.startInput :: sampleValues.map Event.nextFeature

/-- History invariant of the wizard: the step index never exceeds the
feature count; while the input frame is raised, every feature before
the current index has been recorded since the last reset; and on the
summary or result frame every required feature has been recorded since
the last reset. -/
def RecInv (s : GUIState) : Prop :=
  s.currentIndex ≤ input_features.length ∧
  (s.frame = Frame.input →
    ∀ i (hi : i < input_features.length), i < s.currentIndex →
      input_features.get ⟨i, hi⟩ ∈ s.recorded) ∧
  ((s.frame = Frame.summary ∨ s.frame = Frame.result) →
    ∀ f ∈ input_features, f ∈ s.recorded)

/-- Value/history agreement: a required feature has a stored value
exactly when it has been recorded since the last reset (the autofill
keys are not required features, so they never disturb this). -/
def ValInv (s : GUIState) : Prop :=
  ∀ f ∈ input_features,
    ((lookupKV s.userInputs f).isSome = true ↔ f ∈ s.recorded)


/-! ### Association-list lemmas -/

theorem lookupKV_insertKV_self (m : FeatureMap) (k : String) (v : Value) :
    lookupKV (insertKV m k v) k = some v := by
  induction m with
  | nil => simp [insertKV, lookupKV]
  | cons p t ih =>
    by_cases h : p.1 = k
    · simp [insertKV, h, lookupKV]
    · cases p with
      | mk k' v' =>
        simp only [insertKV]
        rw [if_neg h]
        simp only [lookupKV]
        rw [if_neg h]
        exact ih

theorem lookupKV_insertKV_ne (m : FeatureMap) (k k' : String) (v : Value)
    (h : k' ≠ k) : lookupKV (insertKV m k v) k' = lookupKV m k' := by
  induction m with
  | nil =>
    simp only [insertKV, lookupKV]
    rw [if_neg (Ne.symm h)]
  | cons p t ih =>
    cases p with
    | mk a b =>
      by_cases ha : a = k
      · subst ha
        simp only [insertKV, if_pos rfl, lookupKV]
        rw [if_neg (Ne.symm h), if_neg (Ne.symm h)]
      · simp only [insertKV]
        rw [if_neg ha]
        simp only [lookupKV]
        by_cases hk' : a = k'
        · rw [if_pos hk', if_pos hk']
        · rw [if_neg hk', if_neg hk']
          exact ih

theorem keysOf_insertKV_of_not_mem (m : FeatureMap) (k : String) (v : Value)
    (h : ¬ k ∈ keysOf m) : keysOf (insertKV m k v) = keysOf m ++ [k] := by
  induction m with
  | nil => simp [insertKV, keysOf]
  | cons p t ih =>
    cases p with
    | mk a b =>
      simp only [keysOf, List.map_cons, List.mem_cons] at h
      push_neg at h
      simp only [insertKV]
      rw [if_neg (Ne.symm h.1)]
      simp only [keysOf, List.map_cons, List.cons_append]
      have := ih (by simpa [keysOf] using h.2)
      simp only [keysOf] at this
      rw [this]

theorem length_insertKV_of_not_mem (m : FeatureMap) (k : String) (v : Value)
    (h : ¬ k ∈ keysOf m) : (insertKV m k v).length = m.length + 1 := by
  have h1 : (keysOf (insertKV m k v)).length = (keysOf m ++ [k]).length := by
    rw [keysOf_insertKV_of_not_mem m k v h]
  simpa [keysOf] using h1

/-! ### Schema facts -/

theorem target_not_input : ¬ "Target" ∈ input_features := by decide

theorem plantSource_not_input : ¬ "PlantSource" ∈ input_features := by decide

theorem phytochemical_not_input : ¬ "Phytochemical" ∈ input_features := by decide

/-- A required input feature is none of the three autofill keys, so the
autofill writes leave its entry untouched. -/
theorem lookupKV_autofill_input (m : FeatureMap) (f : String)
    (hf : f ∈ input_features) : lookupKV (autofill m) f = lookupKV m f := by
  have h1 : f ≠ "Target" := fun he => target_not_input (he ▸ hf)
  have h2 : f ≠ "PlantSource" := fun he => plantSource_not_input (he ▸ hf)
  have h3 : f ≠ "Phytochemical" := fun he => phytochemical_not_input (he ▸ hf)
  unfold autofill
  rw [lookupKV_insertKV_ne _ _ _ _ h3, lookupKV_insertKV_ne _ _ _ _ h2,
    lookupKV_insertKV_ne _ _ _ _ h1]

/-- The three autofill entries after `autofill`, for any prior map. -/
theorem lookupKV_autofill_constants (m : FeatureMap) :
    lookupKV (autofill m) "Target" = some (Value.num (-2)) ∧
    lookupKV (autofill m) "PlantSource" = some (Value.str "Unknown") ∧
    lookupKV (autofill m) "Phytochemical" = some (Value.str "Unknown") := by
  unfold autofill
  refine ⟨?_, ?_, ?_⟩
  · rw [lookupKV_insertKV_ne _ _ _ _ (by decide), lookupKV_insertKV_ne _ _ _ _ (by decide),
      lookupKV_insertKV_self]
  · rw [lookupKV_insertKV_ne _ _ _ _ (by decide), lookupKV_insertKV_self]
  · rw [lookupKV_insertKV_self]

/-! ### Threshold helpers -/

/-- The threshold constant is one half. -/
theorem half_eq : half = 1/2 := by
  rw [half, Rat.mkRat_eq_div]
  norm_num

/-- Probabilities at or above the threshold classify as anti-angiogenic. -/
theorem classify_of_ge (p : ℚ) (h : 1/2 ≤ p) : classify p = Label.antiAngiogenic := by
  unfold classify
  rw [half_eq]
  exact if_pos h

/-- Probabilities below the threshold classify as pro-angiogenic. -/
theorem classify_of_lt (p : ℚ) (h : p < 1/2) : classify p = Label.proAngiogenic := by
  unfold classify
  rw [half_eq]
  exact if_neg (not_le.mpr h)

/-! ### C1: threshold labelling -/

/-- C1: for every probability `p` in `[0,1]` the derived label is
ANTI_ANGIOGENIC exactly when `p ≥ 0.5` and PRO_ANGIOGENIC exactly when
`p < 0.5` (the tie at 0.5 is anti-angiogenic); the derivation is a
deterministic, monotonic pure function of `p` alone, and
`run_prediction` applies the same function `classify` to both models'
probabilities. -/
theorem classify_threshold_monotone (p q : ℚ) (hp0 : 0 ≤ p) (hp1 : p ≤ 1) :
    (classify p = Label.antiAngiogenic ↔ 1/2 ≤ p) ∧
    (classify p = Label.proAngiogenic ↔ p < 1/2) ∧
    classify (1/2) = Label.antiAngiogenic ∧
    (p ≤ q → labelRank (classify p) ≤ labelRank (classify q)) ∧
    (∀ (env : Env) (s : GUIState) (mlRow hyRow : ℚ × ℚ),
      env.ml_predict_proba (autofill s.userInputs) = Except.ok mlRow →
      env.hybrid_predict_proba (autofill s.userInputs) = Except.ok hyRow →
      (run_prediction env s).1.mlDisplay = some (classify mlRow.2, mlRow.2) ∧
      (run_prediction env s).1.hybridDisplay = some (classify hyRow.2, hyRow.2)) := by
  refine ⟨?_, ?_, ?_, ?_, ?_⟩
  · constructor
    · intro hc
      by_contra hn
      rw [classify_of_lt p (lt_of_not_le hn)] at hc
      exact absurd hc (by decide)
    · exact fun h1 => classify_of_ge p h1
  · constructor
    · intro hc
      by_contra hn
      rw [classify_of_ge p (le_of_not_lt hn)] at hc
      exact absurd hc (by decide)
    · exact fun h1 => classify_of_lt p h1
  · exact classify_of_ge _ le_rfl
  · intro hpq
    by_cases h : (1:ℚ)/2 ≤ p
    · rw [classify_of_ge p h, classify_of_ge q (le_trans h hpq)]
    · rw [classify_of_lt p (lt_of_not_le h)]
      exact Nat.zero_le _
  · intro env s mlRow hyRow hml hhy
    simp only [run_prediction, hml, hhy]
    cases hs : env.sinkOk <;> simp [hs]

/-- Witness for C1 at `p = 0.73`, `q = 0.8`. -/
theorem classify_threshold_monotone_witness :
    classify (73/100) = Label.antiAngiogenic ↔ 1/2 ≤ (73/100 : ℚ) :=
  (classify_threshold_monotone (73/100) (4/5) (by norm_num) (by norm_num)).1

/-! ### C2: the built feature record -/

/-- C2: for a complete raw input set (one entry per required input
feature), the built record has exactly `|input_features| + 3` entries:
all required features, whose values are untouched, plus the three
autofill keys appended at the end; and for an arbitrary prior map the
three autofill entries always end up equal to the fixed constants
(`Target = -2`, `PlantSource = "Unknown"`, `Phytochemical =
"Unknown"`), overwriting any prior content. -/
theorem build_record_entries (m : FeatureMap) (hm : keysOf m = input_features) :
    keysOf (autofill m) = input_features ++ ["Target", "PlantSource", "Phytochemical"] ∧
    (autofill m).length = input_features.length + 3 ∧
    (∀ f ∈ input_features, lookupKV (autofill m) f = lookupKV m f) ∧
    (∀ m' : FeatureMap,
      lookupKV (autofill m') "Target" = some (Value.num (-2)) ∧
      lookupKV (autofill m') "PlantSource" = some (Value.str "Unknown") ∧
      lookupKV (autofill m') "Phytochemical" = some (Value.str "Unknown")) := by
  have k1 : keysOf (insertKV m "Target" (Value.num (-2))) = input_features ++ ["Target"] := by
    rw [keysOf_insertKV_of_not_mem m _ _ (by rw [hm]; decide), hm]
  have k2 : keysOf (insertKV (insertKV m "Target" (Value.num (-2)))
      "PlantSource" (Value.str "Unknown")) = (input_features ++ ["Target"]) ++ ["PlantSource"] := by
    rw [keysOf_insertKV_of_not_mem _ _ _ (by rw [k1]; decide), k1]
  have k3 : keysOf (autofill m) =
      ((input_features ++ ["Target"]) ++ ["PlantSource"]) ++ ["Phytochemical"] := by
    unfold autofill
    rw [keysOf_insertKV_of_not_mem _ _ _ (by rw [k2]; decide), k2]
  refine ⟨?_, ?_, fun f hf => lookupKV_autofill_input m f hf, fun m' => lookupKV_autofill_constants m'⟩
  · rw [k3]; simp
  · have hlen : (autofill m).length = (keysOf (autofill m)).length := by
      simp [keysOf]
    rw [hlen, k3]
    simp

/-- Witness for C2 at the spec's scenario inputs. -/
theorem build_record_entries_witness :
    keysOf (autofill sampleInputs) =
      input_features ++ ["Target", "PlantSource", "Phytochemical"] ∧
    (autofill sampleInputs).length = input_features.length + 3 :=
  ⟨(build_record_entries sampleInputs (by decide)).1,
   (build_record_entries sampleInputs (by decide)).2.1⟩

/-! ### C5: independent model invocation on the same record -/

/-- C5: in one prediction cycle both models are invoked on the same
single-row record `autofill s.userInputs`; each reported probability is
the second component (`p_positive`) of that model's own `predict_proba`
row — the ML display and log column are functions of `mlRow` alone and
the hybrid ones of `hyRow` alone, with no cross-validation between
them. -/
theorem predict_uses_own_p_positive (env : Env) (s : GUIState) (mlRow hyRow : ℚ × ℚ)
    (hml : env.ml_predict_proba (autofill s.userInputs) = Except.ok mlRow)
    (hhy : env.hybrid_predict_proba (autofill s.userInputs) = Except.ok hyRow) :
    (run_prediction env s).1.mlDisplay = some (classify mlRow.2, mlRow.2) ∧
    (run_prediction env s).1.hybridDisplay = some (classify hyRow.2, hyRow.2) ∧
    (env.sinkOk = true →
      (run_prediction env s).1.file =
        appendCsv s.file (keysOf (autofill s.userInputs) ++ resultCols)
          (autofill s.userInputs) mlRow.2 hyRow.2 (classify mlRow.2) (classify hyRow.2)) := by
  simp only [run_prediction, hml, hhy]
  cases hs : env.sinkOk <;> simp [hs]

/-- Witness for C5 in the well-behaved environment. -/
theorem predict_uses_own_p_positive_witness :
    (run_prediction env₀ sampleSummary).1.mlDisplay =
      some (classify (mkRat 73 100), mkRat 73 100) ∧
    (run_prediction env₀ sampleSummary).1.hybridDisplay =
      some (classify (mkRat 41 100), mkRat 41 100) ∧
    (env₀.sinkOk = true →
      (run_prediction env₀ sampleSummary).1.file =
        appendCsv sampleSummary.file
          (keysOf (autofill sampleSummary.userInputs) ++ resultCols)
          (autofill sampleSummary.userInputs) (mkRat 73 100) (mkRat 41 100)
          (classify (mkRat 73 100)) (classify (mkRat 41 100))) :=
  predict_uses_own_p_positive env₀ sampleSummary
    (mkRat 27 100, mkRat 73 100) (mkRat 59 100, mkRat 41 100) rfl rfl

/-! ### Helper lemmas about the confirm step -/

/-- When `run_prediction` raises, `confirm_and_predict` never reaches
`show_frame(result_frame)`: the state is exactly the one left behind by
the aborted `run_prediction`. -/
theorem confirm_and_predict_of_error (env : Env) (s : GUIState) (err : RunErr)
    (h : (run_prediction env s).2 = Except.error err) :
    confirm_and_predict env s = (run_prediction env s).1 := by
  unfold confirm_and_predict
  rcases hr : run_prediction env s with ⟨a, b⟩
  rw [hr] at h
  cases b with
  | ok u => simp at h
  | error er => rfl

/-! ### C3: recordValue validation and coercion -/

/-- C3 counterexample: the claim says a non-numeric string is stored
verbatim as the original raw string; the code stores the *stripped*
string (`value = feature_entry.get().strip()` at `GUI.py:157` is what
gets stored at `GUI.py:166`).  Recording the raw string `" abc "`
stores `"abc"`, which differs from the original. -/
theorem recordValue_strips_counterexample :
    recordValue [] "LogP" " abc " = Except.ok [("LogP", Value.str "abc")] ∧
    (" abc " : String) ≠ "abc" := by
  exact ⟨rfl, by decide⟩

/-- C3 (amended): recording fails with `MissingValueError` exactly when
the stripped string is empty, and an empty submission leaves the wizard
state completely unchanged; on a non-empty stripped string it succeeds,
storing the numeric coercion of the stripped string when `float`
conversion succeeds and otherwise the stripped string verbatim, with no
type error raised. -/
theorem recordValue_spec (m : FeatureMap) (feature raw : String) :
    (pyStrip raw = "" →
      recordValue m feature raw = Except.error InputError.missingValue ∧
      ∀ (env : Env) (s : GUIState), step env s (Event.nextFeature raw) = s) ∧
    (pyStrip raw ≠ "" →
      recordValue m feature raw =
        Except.ok (insertKV m feature (coerceValue (pyStrip raw))) ∧
      (∀ q, pyFloat? (pyStrip raw) = some q →
        coerceValue (pyStrip raw) = Value.num q) ∧
      (pyFloat? (pyStrip raw) = none →
        coerceValue (pyStrip raw) = Value.str (pyStrip raw))) := by
  constructor
  · intro h
    refine ⟨by simp [recordValue, h], ?_⟩
    intro env s
    by_cases hf : s.frame = Frame.input
    · simp [step, hf, handle_next_feature, h]
    · simp [step, hf]
  · intro h
    refine ⟨by simp [recordValue, h], ?_, ?_⟩
    · intro q hq
      simp [coerceValue, hq]
    · intro hq
      simp [coerceValue, hq]

/-- Witness for C3 (amended) on the numeric raw string `"2.1"`. -/
theorem recordValue_spec_witness :
    recordValue [] "LogP" "2.1" =
      Except.ok (insertKV [] "LogP" (coerceValue (pyStrip "2.1"))) ∧
    coerceValue (pyStrip "2.1") = Value.num (mkRat 21 10) :=
  ⟨((recordValue_spec [] "LogP" "2.1").2 (by decide)).1,
   ((recordValue_spec [] "LogP" "2.1").2 (by decide)).2.1 (mkRat 21 10) (by decide)⟩

/-! ### C4: append-only log with header on first write -/

/-- C4 counterexample: the header decision tests file *existence*
(`os.path.isfile` at `GUI.py:293`), not content.  With a log file that
exists but holds no lines, the first append writes only the data row —
1 line, not the 2 lines the claim requires for "an empty log file". -/
theorem append_existing_empty_counterexample :
    appendCsv (some []) (keysOf (autofill sampleInputs) ++ resultCols)
        (autofill sampleInputs) (73/100) (41/100)
        (classify (73/100)) (classify (41/100)) =
      some [LogLine.data (autofill sampleInputs) (73/100) (41/100)
        (classify (73/100)) (classify (41/100))] ∧
    (appendCsv (some []) (keysOf (autofill sampleInputs) ++ resultCols)
        (autofill sampleInputs) (73/100) (41/100)
        (classify (73/100)) (classify (41/100))).map List.length = some 1 := by
  exact ⟨rfl, rfl⟩

/-- C4 (amended): when the log file does not yet exist, the first
append creates it with exactly 2 lines, header then data row; an append
to an existing file adds exactly 1 data row at the end, never rewriting
or reordering the existing lines; appending the same record and results
twice yields two identical data rows (duplicates permitted); but a file
that exists with no lines receives only the data row, since the header
decision is based on file existence rather than content. -/
theorem append_header_once (cols : List String) (row row₂ : FeatureMap)
    (mp hp mp₂ hp₂ : ℚ) (mc hc mc₂ hc₂ : Label) (lines : List LogLine) :
    appendCsv none cols row mp hp mc hc =
      some [LogLine.header cols, LogLine.data row mp hp mc hc] ∧
    appendCsv (some lines) cols row₂ mp₂ hp₂ mc₂ hc₂ =
      some (lines ++ [LogLine.data row₂ mp₂ hp₂ mc₂ hc₂]) ∧
    (appendCsv (some lines) cols row₂ mp₂ hp₂ mc₂ hc₂).map List.length =
      some (lines.length + 1) ∧
    appendCsv (some [LogLine.header cols, LogLine.data row mp hp mc hc])
        cols row mp hp mc hc =
      some [LogLine.header cols, LogLine.data row mp hp mc hc,
        LogLine.data row mp hp mc hc] := by
  refine ⟨rfl, rfl, by simp [appendCsv], rfl⟩

/-! ### C6: model invocation failure aborts the cycle -/

/-- C6: if either model call raises on the assembled record, the
prediction cycle aborts: the exception carries the model's error
verbatim, no log line is written, the displayed labels are untouched,
the raised frame is unchanged (the user stays on the summary view and
may retry), and every user-recorded required feature keeps its value. -/
theorem model_error_aborts (env : Env) (s : GUIState) (e : String)
    (h : env.ml_predict_proba (autofill s.userInputs) = Except.error e ∨
      ((∃ r, env.ml_predict_proba (autofill s.userInputs) = Except.ok r) ∧
        env.hybrid_predict_proba (autofill s.userInputs) = Except.error e)) :
    (run_prediction env s).2 = Except.error (RunErr.modelInvocation e) ∧
    (run_prediction env s).1.file = s.file ∧
    (run_prediction env s).1.frame = s.frame ∧
    (run_prediction env s).1.mlDisplay = s.mlDisplay ∧
    (run_prediction env s).1.hybridDisplay = s.hybridDisplay ∧
    (∀ f ∈ input_features,
      lookupKV (run_prediction env s).1.userInputs f = lookupKV s.userInputs f) ∧
    (s.frame = Frame.summary →
      step env s Event.confirmAndPredict = (run_prediction env s).1) := by
  have hrun : run_prediction env s =
      ({ s with userInputs := autofill s.userInputs },
       Except.error (RunErr.modelInvocation e)) := by
    rcases h with h | ⟨⟨r, hr⟩, hh⟩
    · simp only [run_prediction, h]
    · simp only [run_prediction, hr, hh]
  refine ⟨by rw [hrun], by rw [hrun], by rw [hrun], by rw [hrun], by rw [hrun],
    ?_, ?_⟩
  · intro f hf
    rw [hrun]
    exact lookupKV_autofill_input _ f hf
  · intro hframe
    have := confirm_and_predict_of_error env s (RunErr.modelInvocation e) (by rw [hrun])
    simp [step, hframe, this]

/-- Witness for C6 with a rejecting ML model. -/
theorem model_error_aborts_witness :
    (run_prediction envMlFails sampleSummary).2 =
      Except.error (RunErr.modelInvocation "ValueError: columns are missing") ∧
    (run_prediction envMlFails sampleSummary).1.file = sampleSummary.file :=
  ⟨(model_error_aborts envMlFails sampleSummary _ (Or.inl rfl)).1,
   (model_error_aborts envMlFails sampleSummary _ (Or.inl rfl)).2.1⟩

/-! ### C7: IOError on log append -/

/-- C7 counterexample: with the append failing, the prediction has been
computed and written into the result labels, but the exception escapes
`run_prediction` before `confirm_and_predict` reaches
`show_frame(result_frame)`: the summary frame is still the one raised,
so the computed predictions are not brought into the user's view, and
the failure surfaces as an escaped exception rather than a non-fatal
warning. -/
theorem io_error_counterexample :
    (run_prediction envNoSink sampleSummary).2 = Except.error RunErr.ioError ∧
    (step envNoSink sampleSummary Event.confirmAndPredict).mlDisplay =
      some (Label.antiAngiogenic, mkRat 73 100) ∧
    (step envNoSink sampleSummary Event.confirmAndPredict).frame = Frame.summary ∧
    (step envNoSink sampleSummary Event.confirmAndPredict).frame ≠ Frame.result := by
  refine ⟨rfl, by decide, by decide, by decide⟩

/-- C7 (amended): when the log append fails with an IOError after a
successful prediction, the computed probabilities and labels have been
written to the result labels and are not undone, and no log line is
written — but the prediction cycle aborts before the result frame is
raised, so the user remains on the summary view and the failure
surfaces as an escaped exception rather than a non-fatal warning. -/
theorem io_error_keeps_labels (env : Env) (s : GUIState) (mlRow hyRow : ℚ × ℚ)
    (hml : env.ml_predict_proba (autofill s.userInputs) = Except.ok mlRow)
    (hhy : env.hybrid_predict_proba (autofill s.userInputs) = Except.ok hyRow)
    (hsink : env.sinkOk = false) (hframe : s.frame = Frame.summary) :
    (step env s Event.confirmAndPredict).mlDisplay = some (classify mlRow.2, mlRow.2) ∧
    (step env s Event.confirmAndPredict).hybridDisplay = some (classify hyRow.2, hyRow.2) ∧
    (step env s Event.confirmAndPredict).file = s.file ∧
    (step env s Event.confirmAndPredict).frame = Frame.summary ∧
    (run_prediction env s).2 = Except.error RunErr.ioError := by
  have hrun : run_prediction env s =
      ({ s with userInputs := autofill s.userInputs,
                mlDisplay := some (classify mlRow.2, mlRow.2),
                hybridDisplay := some (classify hyRow.2, hyRow.2) },
       Except.error RunErr.ioError) := by
    simp only [run_prediction, hml, hhy, hsink]
    rfl
  have hstep : step env s Event.confirmAndPredict = (run_prediction env s).1 := by
    have h2 := confirm_and_predict_of_error env s RunErr.ioError (by rw [hrun])
    simp [step, hframe, h2]
  rw [hstep, hrun]
  exact ⟨rfl, rfl, rfl, hframe, rfl⟩

/-- Witness for C7 (amended) in the failing-sink environment. -/
theorem io_error_keeps_labels_witness :
    (step envNoSink sampleSummary Event.confirmAndPredict).file = sampleSummary.file ∧
    (step envNoSink sampleSummary Event.confirmAndPredict).frame = Frame.summary :=
  ⟨(io_error_keeps_labels envNoSink sampleSummary
      (mkRat 27 100, mkRat 73 100) (mkRat 59 100, mkRat 41 100) rfl rfl rfl rfl).2.2.1,
   (io_error_keeps_labels envNoSink sampleSummary
      (mkRat 27 100, mkRat 73 100) (mkRat 59 100, mkRat 41 100) rfl rfl rfl rfl).2.2.2.1⟩

/-! ### C9: record building cannot fail but mutates the input set -/

/-- C9 counterexample: building the record mutates the raw input set it
was given: before `run_prediction` the collected inputs have no
`"Target"` entry, afterwards the same global dict does — the caller's
collected inputs are not unchanged. -/
theorem build_mutates_counterexample :
    lookupKV sampleSummary.userInputs "Target" = none ∧
    (run_prediction env₀ sampleSummary).1.userInputs ≠ sampleSummary.userInputs ∧
    lookupKV (run_prediction env₀ sampleSummary).1.userInputs "Target" =
      some (Value.num (-2)) := by
  have h1 : (run_prediction env₀ sampleSummary).1.userInputs =
      autofill sampleSummary.userInputs := rfl
  have hT : lookupKV sampleSummary.userInputs "Target" = none := by decide
  refine ⟨hT, ?_, ?_⟩
  · intro heq
    have h2 := (lookupKV_autofill_constants sampleSummary.userInputs).1
    rw [← h1, heq, hT] at h2
    exact Option.noConfusion h2
  · rw [h1]
    exact (lookupKV_autofill_constants sampleSummary.userInputs).1

/-- C9 (amended): the build phase of `run_prediction` is a pure, total
function — it cannot itself fail (every abnormal outcome of the cycle
is a model invocation error or the IO error of the sink) and it leaves
every user-recorded required feature value unchanged — but it does
mutate the raw input set: afterwards the collected-input dict is
exactly `autofill` of its previous value, with the three autofill keys
inserted. -/
theorem build_pure_but_mutates (env : Env) (s : GUIState) (m : FeatureMap) :
    (run_prediction env s).1.userInputs = autofill s.userInputs ∧
    (∀ f ∈ input_features, lookupKV (autofill m) f = lookupKV m f) ∧
    ((run_prediction env s).2 = Except.ok () ∨
      (∃ e, (run_prediction env s).2 = Except.error (RunErr.modelInvocation e)) ∨
      (run_prediction env s).2 = Except.error RunErr.ioError) := by
  refine ⟨?_, fun f hf => lookupKV_autofill_input m f hf, ?_⟩
  · simp only [run_prediction]
    split
    · rfl
    · split
      · rfl
      · split <;> rfl
  · simp only [run_prediction]
    split
    · exact Or.inr (Or.inl ⟨_, rfl⟩)
    · split
      · exact Or.inr (Or.inl ⟨_, rfl⟩)
      · split
        · exact Or.inl rfl
        · exact Or.inr (Or.inr rfl)

/-- Witness for C9 (amended) at the scenario state. -/
theorem build_pure_but_mutates_witness :
    (run_prediction env₀ sampleSummary).1.userInputs =
      autofill sampleSummary.userInputs :=
  (build_pure_but_mutates env₀ sampleSummary sampleInputs).1

/-! ### Frame-machine helper lemmas -/

/-- `run_prediction` never touches the step index, the recording
history or the raised frame. -/
theorem run_prediction_components (env : Env) (s : GUIState) :
    (run_prediction env s).1.currentIndex = s.currentIndex ∧
    (run_prediction env s).1.recorded = s.recorded ∧
    (run_prediction env s).1.frame = s.frame := by
  simp only [run_prediction]
  split
  · exact ⟨rfl, rfl, rfl⟩
  · split
    · exact ⟨rfl, rfl, rfl⟩
    · split <;> exact ⟨rfl, rfl, rfl⟩

/-- `run_prediction` always leaves the collected inputs autofilled. -/
theorem run_prediction_userInputs (env : Env) (s : GUIState) :
    (run_prediction env s).1.userInputs = autofill s.userInputs := by
  simp only [run_prediction]
  split
  · rfl
  · split
    · rfl
    · split <;> rfl

/-- The confirm callback keeps index and history, and either raises the
result frame or leaves the frame as it was. -/
theorem confirm_and_predict_components (env : Env) (s : GUIState) :
    (confirm_and_predict env s).currentIndex = s.currentIndex ∧
    (confirm_and_predict env s).recorded = s.recorded ∧
    ((confirm_and_predict env s).frame = Frame.result ∨
      (confirm_and_predict env s).frame = s.frame) := by
  have hc := run_prediction_components env s
  unfold confirm_and_predict
  rcases hr : run_prediction env s with ⟨a, b⟩
  rw [hr] at hc
  cases b with
  | ok u => exact ⟨hc.1, hc.2.1, Or.inl rfl⟩
  | error e => exact ⟨hc.1, hc.2.1, Or.inr hc.2.2⟩

/-- The confirm callback leaves the collected inputs autofilled. -/
theorem confirm_and_predict_userInputs (env : Env) (s : GUIState) :
    (confirm_and_predict env s).userInputs = autofill s.userInputs := by
  have hu := run_prediction_userInputs env s
  unfold confirm_and_predict
  rcases hr : run_prediction env s with ⟨a, b⟩
  rw [hr] at hu
  cases b with
  | ok u => exact hu
  | error e => exact hu

/-! ### Invariant preservation -/

theorem RecInv_step (env : Env) (s : GUIState) (e : Event) (h : RecInv s) :
    RecInv (step env s e) := by
  obtain ⟨hlen, hin, hsum⟩ := h
  cases e with
  | startInput =>
    by_cases hg : s.frame = Frame.welcome ∨ s.frame = Frame.result
    · simp only [step, if_pos hg, start_input]
      refine ⟨Nat.zero_le _, ?_, ?_⟩
      · intro _ i hi hlt
        exact absurd hlt (Nat.not_lt_zero i)
      · intro hf
        rcases hf with hf | hf <;> exact Frame.noConfusion hf
    · simp only [step, if_neg hg]
      exact ⟨hlen, hin, hsum⟩
  | nextFeature raw =>
    by_cases hg : s.frame = Frame.input
    · simp only [step, if_pos hg]
      unfold handle_next_feature
      by_cases hv : pyStrip raw = ""
      · rw [if_pos hv]
        exact ⟨hlen, hin, hsum⟩
      · rw [if_neg hv]
        split
        · exact ⟨hlen, hin, hsum⟩
        · rename_i name hget
          obtain ⟨hidx, hgeteq⟩ := List.get?_eq_some.mp hget
          split
          · rename_i hlt
            refine ⟨Nat.le_of_lt hlt, ?_, ?_⟩
            · intro _ i hi hilt
              rcases Nat.lt_succ_iff_lt_or_eq.mp hilt with hio | hio
              · exact List.mem_cons_of_mem _ (hin hg i hi hio)
              · subst hio
                have hgn : input_features.get ⟨s.currentIndex, hi⟩ = name := hgeteq
                rw [hgn]
                exact List.mem_cons_self _ _
            · intro hf
              rcases hf with hf | hf <;>
                exact Frame.noConfusion (hg ▸ hf)
          · rename_i hlt
            refine ⟨Nat.succ_le_of_lt hidx, ?_, ?_⟩
            · intro hf
              exact absurd hf (by exact fun hh => Frame.noConfusion hh)
            · intro _ f hfmem
              obtain ⟨⟨i, hi⟩, hgi⟩ := List.mem_iff_get.mp hfmem
              have hone : input_features.length = s.currentIndex + 1 :=
                Nat.le_antisymm (Nat.le_of_not_lt hlt) (Nat.succ_le_of_lt hidx)
              have hilt : i < s.currentIndex + 1 := hone ▸ hi
              rcases Nat.lt_succ_iff_lt_or_eq.mp hilt with hio | hio
              · exact List.mem_cons_of_mem _ (hgi ▸ hin hg i hi hio)
              · subst hio
                have hgn : input_features.get ⟨s.currentIndex, hi⟩ = name := hgeteq
                rw [← hgi, hgn]
                exact List.mem_cons_self _ _
    · simp only [step, if_neg hg]
      exact ⟨hlen, hin, hsum⟩
  | editInputs =>
    by_cases hg : s.frame = Frame.summary
    · simp only [step, if_pos hg, edit_inputs]
      refine ⟨Nat.zero_le _, ?_, ?_⟩
      · intro _ i hi hlt
        exact absurd hlt (Nat.not_lt_zero i)
      · intro hf
        rcases hf with hf | hf <;> exact Frame.noConfusion hf
    · simp only [step, if_neg hg]
      exact ⟨hlen, hin, hsum⟩
  | confirmAndPredict =>
    by_cases hg : s.frame = Frame.summary
    · simp only [step, if_pos hg]
      obtain ⟨hci, hcr, hcf⟩ := confirm_and_predict_components env s
      refine ⟨by rw [hci]; exact hlen, ?_, ?_⟩
      · intro hf
        rcases hcf with hcf | hcf
        · rw [hcf] at hf
          exact Frame.noConfusion hf
        · rw [hcf, hg] at hf
          exact Frame.noConfusion hf
      · intro _ f hfmem
        rw [hcr]
        exact hsum (Or.inl hg) f hfmem
    · simp only [step, if_neg hg]
      exact ⟨hlen, hin, hsum⟩

theorem RecInv_foldl (env : Env) (es : List Event) (s : GUIState) (h : RecInv s) :
    RecInv (es.foldl (step env) s) := by
  induction es generalizing s with
  | nil => exact h
  | cons e t ih => exact ih (step env s e) (RecInv_step env s e h)

theorem ValInv_step (env : Env) (s : GUIState) (e : Event) (h : ValInv s) :
    ValInv (step env s e) := by
  cases e with
  | startInput =>
    by_cases hg : s.frame = Frame.welcome ∨ s.frame = Frame.result
    · simp only [step, if_pos hg, start_input]
      intro f hf
      simp [lookupKV]
    · simp only [step, if_neg hg]
      exact h
  | nextFeature raw =>
    by_cases hg : s.frame = Frame.input
    · simp only [step, if_pos hg]
      unfold handle_next_feature
      by_cases hv : pyStrip raw = ""
      · rw [if_pos hv]
        exact h
      · rw [if_neg hv]
        split
        · exact h
        · rename_i name hget
          have key : ∀ f ∈ input_features,
              ((lookupKV (insertKV s.userInputs name (coerceValue (pyStrip raw))) f).isSome
                = true ↔ f ∈ name :: s.recorded) := by
            intro f hf
            by_cases hfn : f = name
            · subst hfn
              rw [lookupKV_insertKV_self]
              simp
            · rw [lookupKV_insertKV_ne _ _ _ _ hfn, List.mem_cons]
              rw [h f hf]
              constructor
              · exact Or.inr
              · rintro (hc | hc)
                · exact absurd hc hfn
                · exact hc
          split
          · exact key
          · exact key
    · simp only [step, if_neg hg]
      exact h
  | editInputs =>
    by_cases hg : s.frame = Frame.summary
    · simp only [step, if_pos hg, edit_inputs]
      exact h
    · simp only [step, if_neg hg]
      exact h
  | confirmAndPredict =>
    by_cases hg : s.frame = Frame.summary
    · simp only [step, if_pos hg]
      intro f hf
      rw [confirm_and_predict_userInputs env s,
        (confirm_and_predict_components env s).2.1,
        lookupKV_autofill_input _ f hf]
      exact h f hf
    · simp only [step, if_neg hg]
      exact h

theorem ValInv_foldl (env : Env) (es : List Event) (s : GUIState) (h : ValInv s) :
    ValInv (es.foldl (step env) s) := by
  induction es generalizing s with
  | nil => exact h
  | cons e t ih => exact ih (step env s e) (ValInv_step env s e h)

theorem RecInv_init (f0 : Option (List LogLine)) : RecInv (initState f0) := by
  refine ⟨Nat.zero_le _, ?_, ?_⟩
  · intro hf
    exact Frame.noConfusion hf
  · intro hf
    rcases hf with hf | hf <;> exact Frame.noConfusion hf

theorem ValInv_init (f0 : Option (List LogLine)) : ValInv (initState f0) := by
  intro f hf
  simp [initState, lookupKV]

/-- The collected inputs after a `Next` submission: unchanged, or the
current feature overwritten with the coerced value. -/
theorem handle_next_feature_userInputs (raw : String) (s : GUIState) :
    (handle_next_feature raw s).userInputs = s.userInputs ∨
    (pyStrip raw ≠ "" ∧ ∃ name, input_features.get? s.currentIndex = some name ∧
      (handle_next_feature raw s).userInputs =
        insertKV s.userInputs name (coerceValue (pyStrip raw))) := by
  unfold handle_next_feature
  by_cases hv : pyStrip raw = ""
  · rw [if_pos hv]
    exact Or.inl rfl
  · rw [if_neg hv]
    split
    · exact Or.inl rfl
    · rename_i name hget
      split
      · exact Or.inr ⟨hv, name, hget, rfl⟩
      · exact Or.inr ⟨hv, name, hget, rfl⟩

/-- The recording history after a `Next` submission: unchanged, or the
current feature pushed on top. -/
theorem handle_next_feature_recorded (raw : String) (s : GUIState) :
    (handle_next_feature raw s).recorded = s.recorded ∨
    (∃ name, input_features.get? s.currentIndex = some name ∧
      (handle_next_feature raw s).recorded = name :: s.recorded) := by
  unfold handle_next_feature
  by_cases hv : pyStrip raw = ""
  · rw [if_pos hv]
    exact Or.inl rfl
  · rw [if_neg hv]
    split
    · exact Or.inl rfl
    · rename_i name hget
      split
      · exact Or.inr ⟨name, hget, rfl⟩
      · exact Or.inr ⟨name, hget, rfl⟩

/-! ### C8: completeness gates the prediction -/

/-- C8: over every reachable state of the wizard, `isComplete` holds
exactly when every required feature has been recorded by a `Next`
submission since the last reset; `start_input` (the reset) clears all
recorded values and restarts at step 0; and whenever the summary frame
is raised — the only place a record can be built and a prediction
launched — completeness holds. -/
theorem complete_iff_recorded (env : Env) (f0 : Option (List LogLine)) (es : List Event) :
    (isComplete (run env f0 es) = true ↔
      ∀ f ∈ input_features, f ∈ (run env f0 es).recorded) ∧
    (∀ s : GUIState, (start_input s).userInputs = [] ∧
      (start_input s).recorded = [] ∧ (start_input s).currentIndex = 0) ∧
    ((run env f0 es).frame = Frame.summary → isComplete (run env f0 es) = true) := by
  have hval : ValInv (run env f0 es) :=
    ValInv_foldl env es (initState f0) (ValInv_init f0)
  have hrec : RecInv (run env f0 es) :=
    RecInv_foldl env es (initState f0) (RecInv_init f0)
  refine ⟨?_, fun s => ⟨rfl, rfl, rfl⟩, ?_⟩
  · unfold isComplete
    rw [List.all_eq_true]
    constructor
    · intro hc f hf
      exact (hval f hf).mp (hc f hf)
    · intro hr f hf
      exact (hval f hf).mpr (hr f hf)
  · intro hsumm
    unfold isComplete
    rw [List.all_eq_true]
    intro f hf
    exact (hval f hf).mpr (hrec.2.2 (Or.inl hsumm) f hf)

/-- Witness for C8: the full scenario trace ends with a complete input
set. -/
theorem complete_iff_recorded_witness :
    isComplete (run env₀ none sampleTrace) = true :=
  (complete_iff_recorded env₀ none sampleTrace).2.2 (by decide)

/-! ### C10: Edit Inputs keeps values, prediction needs a full re-pass -/

/-- C10: the Edit Inputs action resets the step index to the first
feature and returns to the input frame without clearing any recorded
value; from the input frame a required feature's stored value can only
change through a `Next` submission at exactly that feature's step; a
feature enters the recording history only through such a submission;
and from a post-edit state (input frame, index 0, history taken as
empty) the summary or result frame — and hence the prediction — can
only be reached once every required feature is in the history, i.e.
after stepping through and overwriting every required feature. -/
theorem edit_resets_index_keeps_values (env : Env) :
    (∀ s : GUIState, s.frame = Frame.summary →
      (step env s Event.editInputs).userInputs = s.userInputs ∧
      (step env s Event.editInputs).currentIndex = 0 ∧
      (step env s Event.editInputs).frame = Frame.input) ∧
    (∀ (s : GUIState) (e : Event) (f : String), s.frame = Frame.input →
      f ∈ input_features →
      lookupKV (step env s e).userInputs f ≠ lookupKV s.userInputs f →
      ∃ raw, e = Event.nextFeature raw ∧
        input_features.get? s.currentIndex = some f) ∧
    (∀ (s : GUIState) (e : Event) (f : String), f ∈ (step env s e).recorded →
      f ∈ s.recorded ∨ ∃ raw, e = Event.nextFeature raw ∧ s.frame = Frame.input ∧
        input_features.get? s.currentIndex = some f) ∧
    (∀ (s₀ : GUIState) (es : List Event), s₀.frame = Frame.input →
      s₀.currentIndex = 0 → s₀.recorded = [] →
      ((es.foldl (step env) s₀).frame = Frame.summary ∨
        (es.foldl (step env) s₀).frame = Frame.result) →
      ∀ f ∈ input_features, f ∈ (es.foldl (step env) s₀).recorded) := by
  refine ⟨?_, ?_, ?_, ?_⟩
  · intro s hs
    simp only [step, if_pos hs, edit_inputs]
    exact ⟨trivial, trivial, trivial⟩
  · intro s e f hs hf hne
    cases e with
    | startInput =>
      have hng : ¬ (s.frame = Frame.welcome ∨ s.frame = Frame.result) := by
        rw [hs]
        rintro (hh | hh) <;> exact Frame.noConfusion hh
      simp only [step, if_neg hng] at hne
      exact absurd rfl hne
    | editInputs =>
      have hng : ¬ s.frame = Frame.summary := by
        rw [hs]
        exact fun hh => Frame.noConfusion hh
      simp only [step, if_neg hng] at hne
      exact absurd rfl hne
    | confirmAndPredict =>
      have hng : ¬ s.frame = Frame.summary := by
        rw [hs]
        exact fun hh => Frame.noConfusion hh
      simp only [step, if_neg hng] at hne
      exact absurd rfl hne
    | nextFeature raw =>
      refine ⟨raw, rfl, ?_⟩
      have hstep : step env s (Event.nextFeature raw) = handle_next_feature raw s := by
        simp only [step, if_pos hs]
      rw [hstep] at hne
      rcases handle_next_feature_userInputs raw s with hu | ⟨hv, name, hget, hu⟩
      · rw [hu] at hne
        exact absurd rfl hne
      · by_cases hfn : f = name
        · subst hfn
          exact hget
        · rw [hu, lookupKV_insertKV_ne _ _ _ _ hfn] at hne
          exact absurd rfl hne
  · intro s e f hfmem
    cases e with
    | startInput =>
      by_cases hg : s.frame = Frame.welcome ∨ s.frame = Frame.result
      · simp only [step, if_pos hg, start_input] at hfmem
        exact absurd hfmem (List.not_mem_nil f)
      · simp only [step, if_neg hg] at hfmem
        exact Or.inl hfmem
    | editInputs =>
      by_cases hg : s.frame = Frame.summary
      · simp only [step, if_pos hg, edit_inputs] at hfmem
        exact Or.inl hfmem
      · simp only [step, if_neg hg] at hfmem
        exact Or.inl hfmem
    | confirmAndPredict =>
      by_cases hg : s.frame = Frame.summary
      · simp only [step, if_pos hg] at hfmem
        rw [(confirm_and_predict_components env s).2.1] at hfmem
        exact Or.inl hfmem
      · simp only [step, if_neg hg] at hfmem
        exact Or.inl hfmem
    | nextFeature raw =>
      by_cases hg : s.frame = Frame.input
      · simp only [step, if_pos hg] at hfmem
        rcases handle_next_feature_recorded raw s with hr | ⟨name, hget, hr⟩
        · rw [hr] at hfmem
          exact Or.inl hfmem
        · rw [hr] at hfmem
          rcases List.mem_cons.mp hfmem with hfe | hfe
          · subst hfe
            exact Or.inr ⟨raw, rfl, hg, hget⟩
          · exact Or.inl hfe
      · simp only [step, if_neg hg] at hfmem
        exact Or.inl hfmem
  · intro s₀ es hfr hidx0 hrec0 hfin f hf
    have hinv : RecInv (es.foldl (step env) s₀) := by
      refine RecInv_foldl env es s₀ ⟨?_, ?_, ?_⟩
      · rw [hidx0]
        exact Nat.zero_le _
      · intro _ i hi hlt
        rw [hidx0] at hlt
        exact absurd hlt (Nat.not_lt_zero i)
      · intro hffr
        rcases hffr with hffr | hffr <;>
          (rw [hfr] at hffr; exact Frame.noConfusion hffr)
    exact hinv.2.2 hfin f hf

/-- Witness for C10 at a concrete summary state. -/
theorem edit_resets_index_keeps_values_witness :
    (step env₀ sampleSummary Event.editInputs).userInputs = sampleSummary.userInputs ∧
    (step env₀ sampleSummary Event.editInputs).currentIndex = 0 ∧
    (step env₀ sampleSummary Event.editInputs).frame = Frame.input :=
  (edit_resets_index_keeps_values env₀).1 sampleSummary rfl
